import Mathlib

/-!
Verification of the deploy-info library (src/index.js).

The JavaScript module is a thin wrapper around the `git` command line tool.
We embed it shallowly: the Repository Query Facade (git) is modelled by an
explicit environment value describing the commit history reachable from HEAD
(most-recent-first), the branch query, the `package.json` manifest and the
tag query; each method of the `DeployInfo` class becomes a total Lean
function of that environment.  A `try/catch` in the source becomes a match
on an `Option`: `none` models the subprocess failing (no repository, tool
missing, empty repository for the `git log` family), and the `catch` branch
value is returned there.
-/

namespace DeployInfo

/-- A commit record as read from history by the query facade.
`timestamp` is the commit time in epoch seconds (`%ct`). -/
structure CommitRecord where
  hash : String
  authorName : String
  authorEmail : String
  committerName : String
  message : String
  timestamp : Nat
  deriving DecidableEq, Repr

/-- A classification pattern: an alternation of literal alternatives,
modelling the `--grep="alt1|alt2"` argument the source passes to git.
Matching is case-insensitive (`--regexp-ignore-case`). -/
abbrev Pattern := List String

/-- ASCII lowering of one character, the effect of `--regexp-ignore-case`
and `String.prototype.toLowerCase` on the ASCII range. -/
def lowerChar (c : Char) : Char :=
  if 'A' ≤ c ∧ c ≤ 'Z' then Char.ofNat (c.toNat + 32) else c

/-- `toLowerCase` on a whole string. -/
def lowerStr (s : String) : String :=
  String.mk (s.data.map lowerChar)

/-- The whitespace characters `String.prototype.trim` strips in the outputs
the source handles (git emits only ASCII whitespace around its fields). -/
def isSpaceChar (c : Char) : Bool :=
  c == ' ' || c == '\t' || c == '\n' || c == '\r'

/-- Drop leading whitespace characters. -/
def dropLeadingWS : List Char → List Char
  | [] => []
  | c :: t => if isSpaceChar c then dropLeadingWS t else c :: t

/-- `String.prototype.trim`: strip whitespace from both ends. -/
def trimStr (s : String) : String :=
  String.mk (dropLeadingWS ((dropLeadingWS s.data.reverse).reverse))

theorem trimStr_empty : trimStr "" = "" := rfl

/-- `leadsWith p l` is true when `p` is an initial segment of `l`. -/
def leadsWith : List Char → List Char → Bool
  | [], _ => true
  | _ :: _, [] => false
  | p :: ps, h :: hs => p == h && leadsWith ps hs

/-- `hasSub pat l` is true when `pat` occurs contiguously inside `l`. -/
def hasSub (pat : List Char) : List Char → Bool
  | [] => leadsWith pat []
  | h :: t => leadsWith pat (h :: t) || hasSub pat t

/-- Case-insensitive containment: the facade's `--grep=pat --regexp-ignore-case`
test for one literal alternative against a commit message. -/
def containsCI (pat msg : String) : Bool :=
  hasSub (lowerStr pat).data (lowerStr msg).data

/-- A commit message matches a pattern when some literal alternative of the
alternation occurs in it, case-insensitively. -/
def patMatches (P : Pattern) (msg : String) : Bool :=
  P.any (fun alt => containsCI alt msg)

/-- The pattern hard-coded by src/index.js:
`"deploy success|deployment successful"`. -/
def defaultPattern : Pattern := ["deploy success", "deployment successful"]

/-- The history the `git log` family of commands can see.  `none` models a
failing tool or a directory that is not a repository; an empty repository
also makes `git log` exit nonzero, hence `some []` is likewise unavailable. -/
def availHistory : Option (List CommitRecord) → Option (List CommitRecord)
  | none => none
  | some [] => none
  | some (c :: t) => some (c :: t)

/-- Facade output of `git log --grep=<P> --regexp-ignore-case --pretty=format:%H`:
one hash line per matching commit, most-recent-first. -/
def grepHashes (P : Pattern) (H : List CommitRecord) : List String :=
  (H.filter (fun c => patMatches P c.message)).map (fun c => c.hash)

/-- Facade output of the same query with `-1`: the hash of the first matching
commit in most-recent-first order, or the empty string when none matches. -/
def grepFirstHash (P : Pattern) (H : List CommitRecord) : String :=
  match H.find? (fun c => patMatches P c.message) with
  | none => ""
  | some c => c.hash

/-- Looking a commit up by hash (`git show <hash>` / `git log -1 <hash>`). -/
def findByHash (H : List CommitRecord) (h : String) : Option CommitRecord :=
  H.find? (fun d => d.hash == h)

/-- `getDeployCountFromGit`: counts the nonempty lines of the grep output
(`output.split(/\r?\n/).filter(Boolean).length`); the `catch` branch
returns 0. -/
def getDeployCountFromGit (P : Pattern) (g : Option (List CommitRecord)) : Nat :=
  match availHistory g with
  | none => 0
  | some H => ((grepHashes P H).filter (fun s => s != "")).length

/-- Claim C1 helper: with well-formed (nonempty) hashes the count is exactly
the number of commits whose message matches the pattern. -/
theorem count_eq_filter_length (P : Pattern) (H : List CommitRecord)
    (hh : ∀ c ∈ H, c.hash ≠ "") :
    getDeployCountFromGit P (some H)
      = (H.filter (fun c => patMatches P c.message)).length := by
  cases H with
  | nil => rfl
  | cons c t =>
    show ((grepHashes P (c :: t)).filter (fun s => s != "")).length = _
    have hall : ∀ s ∈ grepHashes P (c :: t), (s != "") = true := by
      intro s hs
      simp only [grepHashes, List.mem_map] at hs
      obtain ⟨d, hd, rfl⟩ := hs
      have hdm : d ∈ c :: t := (List.mem_filter.mp hd).1
      simpa [bne_iff_ne] using hh d hdm
    rw [List.filter_eq_self.mpr hall]
    simp [grepHashes]

/-- Claim C1: for every history H and pattern P, the deploy count computed by
`getDeployCountFromGit` equals the number of commits in H whose message
contains a case-insensitive match for P, and never exceeds the length of H. -/
theorem deployCount_correct (P : Pattern) (H : List CommitRecord)
    (hh : ∀ c ∈ H, c.hash ≠ "") :
    getDeployCountFromGit P (some H)
      = (H.filter (fun c => patMatches P c.message)).length ∧
    getDeployCountFromGit P (some H) ≤ H.length := by
  have hcount := count_eq_filter_length P H hh
  exact ⟨hcount, hcount ▸ List.length_filter_le _ _⟩

/-- A concrete history used to instantiate the universally quantified
theorems: three commits, two of which match the default pattern. -/
def wH : List CommitRecord :=
  [{ hash := "a1f0", authorName := "Ann", authorEmail := "ann@example.com",
     committerName := "Ann", message := "deploy success: v1", timestamp := 1700000200 },
   { hash := "b2e1", authorName := "Bob", authorEmail := "bob@example.com",
     committerName := "Bob", message := "fix bug", timestamp := 1700000100 },
   { hash := "c3d2", authorName := "Cal", authorEmail := "cal@example.com",
     committerName := "Cal", message := "Deployment Successful - hotfix", timestamp := 1700000000 }]

/-- Witness for claim C1 at the concrete history `wH` and the default pattern. -/
theorem deployCount_correct_witness :
    (∀ c ∈ wH, c.hash ≠ "") ∧
    (getDeployCountFromGit defaultPattern (some wH)
        = (wH.filter (fun c => patMatches defaultPattern c.message)).length ∧
      getDeployCountFromGit defaultPattern (some wH) ≤ wH.length) :=
  ⟨by decide, deployCount_correct defaultPattern wH (by decide)⟩

/-- 2-digit zero padding, as `Date.prototype.toISOString` renders fields. -/
def pad2 (n : Nat) : String :=
  if n < 10 then "0" ++ toString n else toString n

/-- 4-digit zero padding for the year field. -/
def pad4 (n : Nat) : String :=
  if n < 10 then "000" ++ toString n
  else if n < 100 then "00" ++ toString n
  else if n < 1000 then "0" ++ toString n
  else toString n

/-- Proleptic-Gregorian civil date from days since the Unix epoch, the
calendar arithmetic behind `Date.prototype.toISOString` (nonnegative
timestamps only, which is all epoch-second commit times are). -/
def civilFromDays (z0 : Nat) : Nat × Nat × Nat :=
  let z := z0 + 719468
  let era := z / 146097
  let doe := z % 146097
  let yoe := (doe - doe / 1460 + doe / 36524 - doe / 146096) / 365
  let y := yoe + era * 400
  let doy := doe - (365 * yoe + yoe / 4 - yoe / 100)
  let mp := (5 * doy + 2) / 153
  let d := doy - (153 * mp + 2) / 5 + 1
  let m := if mp < 10 then mp + 3 else mp - 9
  (if m ≤ 2 then y + 1 else y, m, d)

/-- `new Date(ts * 1000).toISOString()` for a whole-second epoch timestamp. -/
def isoOfTimestamp (ts : Nat) : String :=
  let days := ts / 86400
  let secs := ts % 86400
  let c := civilFromDays days
  pad4 c.1 ++ "-" ++ pad2 c.2.1 ++ "-" ++ pad2 c.2.2 ++ "T" ++
    pad2 (secs / 3600) ++ ":" ++ pad2 ((secs % 3600) / 60) ++ ":" ++
    pad2 (secs % 60) ++ ".000Z"

/-- The record returned by `getLastSuccessfulFromGit`:
`\x7b commit: string | null, time: string | null \x7d`. -/
structure LastSuccessful where
  commit : Option String
  time : Option String
  deriving DecidableEq, Repr

/-- `getLastSuccessfulFromGit`: `git log -1 --grep=... --pretty=format:%H`,
trimmed; the empty string (no match) yields the null record, otherwise
`git show -s --format=%ct <hash>` supplies the time; any failure is caught
and mapped to the null record. -/
def getLastSuccessfulFromGit (P : Pattern) (g : Option (List CommitRecord)) :
    LastSuccessful :=
  match availHistory g with
  | none => { commit := none, time := none }
  | some H =>
    if trimStr (grepFirstHash P H) = "" then { commit := none, time := none }
    else
      match findByHash H (trimStr (grepFirstHash P H)) with
      | none => { commit := none, time := none }
      | some d => { commit := some (trimStr (grepFirstHash P H)),
                    time := some (isoOfTimestamp d.timestamp) }

/-- Claim C2: the last qualifying commit is absent (commit and time both
null) exactly when the count is 0; when the count is positive it is present,
its hash is the hash of a member of H, namely the first qualifying commit
in most-recent-first scan order. -/
theorem lastSuccessful_correct (P : Pattern) (H : List CommitRecord)
    (hh : ∀ c ∈ H, trimStr c.hash = c.hash ∧ c.hash ≠ "") :
    (((getLastSuccessfulFromGit P (some H)).commit = none ∧
      (getLastSuccessfulFromGit P (some H)).time = none) ↔
        getDeployCountFromGit P (some H) = 0) ∧
    (0 < getDeployCountFromGit P (some H) →
      ∃ c, H.find? (fun d => patMatches P d.message) = some c ∧ c ∈ H ∧
        (getLastSuccessfulFromGit P (some H)).commit = some c.hash ∧
        (getLastSuccessfulFromGit P (some H)).time ≠ none) := by
  have hne : ∀ c ∈ H, c.hash ≠ "" := fun c hc => (hh c hc).2
  have hcount := count_eq_filter_length P H hne
  rcases hfind : H.find? (fun d => patMatches P d.message) with _ | c
  · -- no commit qualifies
    have hfil : H.filter (fun d => patMatches P d.message) = [] := by
      rw [List.filter_eq_nil_iff]
      intro a ha
      simpa using List.find?_eq_none.mp hfind a ha
    have hc0 : getDeployCountFromGit P (some H) = 0 := by
      rw [hcount, hfil]; rfl
    have hlast : getLastSuccessfulFromGit P (some H) = { commit := none, time := none } := by
      cases H with
      | nil => rfl
      | cons a t =>
        simp [getLastSuccessfulFromGit, availHistory, grepFirstHash, hfind, trimStr_empty]
    rw [hlast, hc0]
    exact ⟨by simp, fun h => absurd h (by simp)⟩
  · -- a commit qualifies
    have hqc := List.find?_some hfind
    have hmem : c ∈ H := List.mem_of_find?_eq_some hfind
    obtain ⟨htrim, hne'⟩ := hh c hmem
    cases H with
    | nil => simp at hfind
    | cons a t =>
      have hgfh : trimStr (grepFirstHash P (a :: t)) = c.hash := by
        simp [grepFirstHash, hfind, htrim]
      have hmem' : c ∈ a :: t := hmem
      have hlast : (getLastSuccessfulFromGit P (some (a :: t))).commit = some c.hash ∧
          (getLastSuccessfulFromGit P (some (a :: t))).time ≠ none := by
        rcases hfb : List.find? (fun d => d.hash == c.hash) (a :: t) with _ | d
        · exact absurd (by simp : (c.hash == c.hash) = true)
            (by simpa using List.find?_eq_none.mp hfb c hmem')
        · constructor <;>
            simp [getLastSuccessfulFromGit, availHistory, hgfh, hne', findByHash, hfb]
      have hpos : 0 < getDeployCountFromGit P (some (a :: t)) := by
        rw [hcount]
        have hcf : c ∈ (a :: t).filter (fun d => patMatches P d.message) :=
          List.mem_filter.mpr ⟨hmem', hqc⟩
        exact List.length_pos.mpr (List.ne_nil_of_mem hcf)
      refine ⟨?_, fun _ => ⟨c, hfind, hmem', hlast.1, hlast.2⟩⟩
      constructor
      · rintro ⟨h1, -⟩
        rw [hlast.1] at h1
        cases h1
      · intro h0
        rw [h0] at hpos
        cases hpos

/-- Witness for claim C2 at the concrete history `wH` and the default pattern. -/
theorem lastSuccessful_correct_witness :
    (∀ c ∈ wH, trimStr c.hash = c.hash ∧ c.hash ≠ "") ∧
    ((((getLastSuccessfulFromGit defaultPattern (some wH)).commit = none ∧
       (getLastSuccessfulFromGit defaultPattern (some wH)).time = none) ↔
         getDeployCountFromGit defaultPattern (some wH) = 0) ∧
     (0 < getDeployCountFromGit defaultPattern (some wH) →
       ∃ c, wH.find? (fun d => patMatches defaultPattern d.message) = some c ∧
         c ∈ wH ∧
         (getLastSuccessfulFromGit defaultPattern (some wH)).commit = some c.hash ∧
         (getLastSuccessfulFromGit defaultPattern (some wH)).time ≠ none)) :=
  ⟨by decide, lastSuccessful_correct defaultPattern wH (by decide)⟩

/-- `getDeployStatus`: runs `git log -1 --grep=... --pretty=format:%H`,
trims the output, and reports `"success"` on a nonempty result, `"failed"`
on an empty one, and `"unknown"` when the command fails (no repository, or
a repository with no commits at all). -/
def getDeployStatus (P : Pattern) (g : Option (List CommitRecord)) : String :=
  match availHistory g with
  | none => "unknown"
  | some H => if trimStr (grepFirstHash P H) = "" then "failed" else "success"

/-- The head of `H3` does not match, the older commit does. -/
def cFix : CommitRecord :=
  { hash := "aaaa", authorName := "Ann", authorEmail := "ann@example.com",
    committerName := "Ann", message := "fix bug", timestamp := 1700000100 }

/-- An older commit with a matching message. -/
def cDep : CommitRecord :=
  { hash := "bbbb", authorName := "Bob", authorEmail := "bob@example.com",
    committerName := "Bob", message := "deploy success: v1", timestamp := 1700000000 }

/-- A two-commit history whose HEAD commit does not match the pattern. -/
def H3 : List CommitRecord := [cFix, cDep]

/-- Claim C3 (divergence): the source comments say `getDeployStatus` checks
whether the HEAD commit matches the pattern, but `git log -1 --grep` scans
the whole reachable history; on `H3`, whose HEAD message "fix bug" does not
match while an older commit does, the code returns "success" where the
claimed HEAD-only policy requires "failed". -/
theorem deployStatus_scans_whole_history :
    H3.head? = some cFix ∧
    patMatches defaultPattern cFix.message = false ∧
    getDeployStatus defaultPattern (some H3) = "success" := by
  refine ⟨rfl, by decide, by decide⟩

/-- The parsed `package.json` manifest; `version` is `none` when the file
has no version field (JS also treats an empty-string version as falsy,
which `jsOrOpt` below models). -/
structure Manifest where
  version : Option String
  deriving DecidableEq, Repr

/-- The environment the module runs in.  `git` is the commit history
reachable from HEAD, most-recent-first, or `none` when the directory is not
a repository / the tool fails.  `branch` and `tag` are the outputs of
`git rev-parse --abbrev-ref HEAD` and `git describe --tags --abbrev=0`, or
`none` when those commands fail.  `manifest` is `none` when `package.json`
does not exist and `some none` when reading or parsing it throws.
`showStat` is the raw output of `git show --stat <hash>`, or `none` when
that command fails.  `nowIso` and `nowLocale` are the two clock reads the
constructor performs. -/
structure Env where
  git : Option (List CommitRecord)
  branch : Option String
  manifest : Option (Option Manifest)
  tag : Option String
  showStat : String → Option String
  nowIso : String
  nowLocale : String

/-- JS `s || d` for a string-or-null value: null and the empty string are
falsy and select the default. -/
def jsOrOpt (s : Option String) (d : String) : String :=
  match s with
  | none => d
  | some v => if v = "" then d else v

/-- JS `s || d` for a plain string value. -/
def jsOr (s d : String) : String :=
  if s = "" then d else s

/-- JS `s || null` for a string-or-null value. -/
def jsOrNull (s : Option String) : Option String :=
  match s with
  | none => none
  | some v => if v = "" then none else some v

/-- JS `String(s || "")` for a string-or-null argument. -/
def strOfOpt (s : Option String) : String :=
  match s with
  | none => ""
  | some v => v

/-- `getVersion`: reads `version` from `package.json` when the file exists
and parses; a missing file, an unreadable or malformed file, and a missing
(or empty, hence falsy) version field all yield the default `"1.0.0"`. -/
def getVersion (env : Env) : String :=
  match env.manifest with
  | none => "1.0.0"
  | some none => "1.0.0"
  | some (some m) => jsOrOpt m.version "1.0.0"

/-- The current commit, when `git log`/`git rev-parse` can see one. -/
def headCommit (g : Option (List CommitRecord)) : Option CommitRecord :=
  match availHistory g with
  | none => none
  | some H => H.head?

/-- `getGitCommit`: `git rev-parse --short HEAD` (the hash of the current
commit; the model does not distinguish the short textual form), trimmed;
`"unknown"` when the command fails. -/
def getGitCommit (env : Env) : String :=
  match headCommit env.git with
  | none => "unknown"
  | some c => trimStr c.hash

/-- `getGitBranch`: `git rev-parse --abbrev-ref HEAD`, trimmed; `"unknown"`
on failure. -/
def getGitBranch (env : Env) : String :=
  match env.branch with
  | none => "unknown"
  | some b => trimStr b

/-- `getGitLastCommitMessage`: `git log -1 --format=%s`, trimmed;
a fixed message on failure. -/
def getGitLastCommitMessage (env : Env) : String :=
  match headCommit env.git with
  | none => "No commit message available"
  | some c => trimStr c.message

/-- `getGitAuthorName`: `git log -1 --format=%an`; `"unknown"` on failure. -/
def getGitAuthorName (env : Env) : String :=
  match headCommit env.git with
  | none => "unknown"
  | some c => trimStr c.authorName

/-- `getGitAuthorEmail`: `git log -1 --format=%ae`; `"unknown"` on failure. -/
def getGitAuthorEmail (env : Env) : String :=
  match headCommit env.git with
  | none => "unknown"
  | some c => trimStr c.authorEmail

/-- `getGitCommitterName`: `git log -1 --format=%cn`; `"unknown"` on failure. -/
def getGitCommitterName (env : Env) : String :=
  match headCommit env.git with
  | none => "unknown"
  | some c => trimStr c.committerName

/-- `getGitTag`: `git describe --tags --abbrev=0`; `"no-tag"` on failure. -/
def getGitTag (env : Env) : String :=
  match env.tag with
  | none => "no-tag"
  | some t => trimStr t

/-- The snapshot held by the singleton instance: the fields the constructor
assigns to `this`. -/
structure DeployInfoState where
  deployTime : String
  version : String
  gitCommit : String
  gitCommitMessage : String
  gitBranch : String
  buildTime : String
  deployStatus : String
  deriving DecidableEq, Repr

/-- `getGitLastCommitDate`: `git log -1 --format=%ct` converted to an ISO
instant; on failure the instance's own `deployTime` is returned. -/
def getGitLastCommitDate (st : DeployInfoState) (env : Env) : String :=
  match headCommit env.git with
  | none => st.deployTime
  | some c => isoOfTimestamp c.timestamp

/-- `getLastSuccessfulCommitMessage`: the subject of the last qualifying
commit; a distinct sentinel for "no qualifying commit" versus "query failed". -/
def getLastSuccessfulCommitMessage (P : Pattern) (env : Env) : String :=
  match availHistory env.git with
  | none => "Unable to retrieve message"
  | some H =>
    if trimStr (grepFirstHash P H) = "" then "No successful deploy found"
    else
      match findByHash H (trimStr (grepFirstHash P H)) with
      | none => "Unable to retrieve message"
      | some d => trimStr d.message

/-- `getLastSuccessfulAuthorName`: `%an` of the last qualifying commit;
`"unknown"` when there is none or any query fails. -/
def getLastSuccessfulAuthorName (P : Pattern) (env : Env) : String :=
  match availHistory env.git with
  | none => "unknown"
  | some H =>
    if trimStr (grepFirstHash P H) = "" then "unknown"
    else
      match findByHash H (trimStr (grepFirstHash P H)) with
      | none => "unknown"
      | some d => trimStr d.authorName

/-- `getLastSuccessfulAuthorEmail`: `%ae` of the last qualifying commit;
`"unknown"` when there is none or any query fails. -/
def getLastSuccessfulAuthorEmail (P : Pattern) (env : Env) : String :=
  match availHistory env.git with
  | none => "unknown"
  | some H =>
    if trimStr (grepFirstHash P H) = "" then "unknown"
    else
      match findByHash H (trimStr (grepFirstHash P H)) with
      | none => "unknown"
      | some d => trimStr d.authorEmail

/-- The value returned by `getDeployCommitStats`: either the zero stats
object of the failure paths, or the raw last stat line with the commit. -/
inductive DeployCommitStats where
  | zeros : DeployCommitStats
  | rawInfo : String → String → DeployCommitStats
  deriving DecidableEq, Repr

/-- `getDeployCommitStats`: on every failure path the zero record; otherwise
`lines[lines.length - 2] || ""` of the `git show --stat` output together
with the qualifying commit hash. -/
def getDeployCommitStats (P : Pattern) (env : Env) : DeployCommitStats :=
  match availHistory env.git with
  | none => DeployCommitStats.zeros
  | some H =>
    if trimStr (grepFirstHash P H) = "" then DeployCommitStats.zeros
    else
      match env.showStat (trimStr (grepFirstHash P H)) with
      | none => DeployCommitStats.zeros
      | some out =>
        let lines := out.splitOn "\n"
        let lastLine := if lines.length < 2 then "" else lines.getD (lines.length - 2) ""
        DeployCommitStats.rawInfo lastLine (trimStr (grepFirstHash P H))

/-- The three admissible status strings of `setDeployStatus`. -/
def statusSet : List String := ["success", "failed", "unknown"]

/-- `setDeployStatus`: normalize the argument (trim, lowercase) and update
`deployStatus` only when the normalized value is admissible; always return
the post-call value of `deployStatus`. -/
def setDeployStatus (status : Option String) (st : DeployInfoState) :
    String × DeployInfoState :=
  if statusSet.contains (lowerStr (trimStr (strOfOpt status)))
  then (lowerStr (trimStr (strOfOpt status)),
        { st with deployStatus := lowerStr (trimStr (strOfOpt status)) })
  else (st.deployStatus, st)

/-- The constructor: each field is fixed once from the environment. -/
def init (env : Env) : DeployInfoState :=
  { deployTime := env.nowIso
    version := getVersion env
    gitCommit := getGitCommit env
    gitCommitMessage := getGitLastCommitMessage env
    gitBranch := getGitBranch env
    buildTime := env.nowLocale
    deployStatus := getDeployStatus defaultPattern env.git }

/-- Property getter `deploy_count` (the source hard-codes the default
pattern in the method it calls). -/
def deploy_count (env : Env) : Nat :=
  getDeployCountFromGit defaultPattern env.git

/-- Property getter `last_success_commit`: `... .commit || "unknown"`. -/
def last_success_commit (env : Env) : String :=
  jsOrOpt (getLastSuccessfulFromGit defaultPattern env.git).commit "unknown"

/-- Property getter `last_success_time`: `... .time || null`. -/
def last_success_time (env : Env) : Option String :=
  jsOrNull (getLastSuccessfulFromGit defaultPattern env.git).time

/-- An author sub-record of the aggregate info object. -/
structure AuthorRecord where
  name : String
  email : String
  deriving DecidableEq, Repr

/-- The `git.currentCommit` sub-record of the aggregate info object. -/
structure CurrentCommitRecord where
  hash : String
  branch : String
  date : String
  message : String
  author : AuthorRecord
  committer : String
  deriving DecidableEq, Repr

/-- The `git.lastSuccessfulDeploy` sub-record of the aggregate info object. -/
structure LastDeployRecord where
  commit : Option String
  time : Option String
  message : String
  author : AuthorRecord
  deriving DecidableEq, Repr

/-- The `git` sub-record of the aggregate info object. -/
structure GitRecord where
  currentCommit : CurrentCommitRecord
  lastSuccessfulDeploy : LastDeployRecord
  latestTag : String
  deriving DecidableEq, Repr

/-- The aggregate object returned by `getInfo`. -/
structure InfoRecord where
  version : String
  deployTime : String
  buildTime : String
  deployStatus : String
  deployCount : Nat
  git : GitRecord
  deriving DecidableEq, Repr

/-- `getInfo`: assembles the snapshot fields and fresh facade queries into
the nested info object. -/
def getInfo (st : DeployInfoState) (env : Env) : InfoRecord :=
  { version := st.version
    deployTime := st.deployTime
    buildTime := st.buildTime
    deployStatus := st.deployStatus
    deployCount := getDeployCountFromGit defaultPattern env.git
    git :=
      { currentCommit :=
          { hash := st.gitCommit
            branch := st.gitBranch
            date := getGitLastCommitDate st env
            message := getGitLastCommitMessage env
            author := { name := getGitAuthorName env, email := getGitAuthorEmail env }
            committer := getGitCommitterName env }
        lastSuccessfulDeploy :=
          { commit := (getLastSuccessfulFromGit defaultPattern env.git).commit
            time := (getLastSuccessfulFromGit defaultPattern env.git).time
            message := getLastSuccessfulCommitMessage defaultPattern env
            author := { name := getLastSuccessfulAuthorName defaultPattern env
                        email := getLastSuccessfulAuthorEmail defaultPattern env } }
        latestTag := getGitTag env } }

/-- ASCII uppercasing of one character (`String.prototype.toUpperCase`). -/
def upperChar (c : Char) : Char :=
  if 'a' ≤ c ∧ c ≤ 'z' then Char.ofNat (c.toNat - 32) else c

/-- `toUpperCase` on a whole string. -/
def upperStr (s : String) : String :=
  String.mk (s.data.map upperChar)

/-- A horizontal rule of `n` box-drawing characters, as they appear in the
source's template literal. -/
def bar (n : Nat) : String := String.mk (List.replicate n '═')

/-- `toString`: the box-drawn report rendered from a fresh `getInfo` result,
trimmed like the source's template literal.  The rule lines carry the exact
character counts of the source template. -/
def toStringRender (st : DeployInfoState) (env : Env) : String :=
  let info := getInfo st env
  let current := info.git.currentCommit
  let lastDeploy := info.git.lastSuccessfulDeploy
  trimStr
    ("\n╔" ++ bar 20 ++ " DEPLOY INFO " ++ bar 20 ++ "╗\n║ Version      : "
      ++ info.version
      ++ "\n║ Status       : " ++ upperStr info.deployStatus
      ++ "\n║ Deploy Count : " ++ toString info.deployCount
      ++ "\n║ Build Time   : " ++ info.buildTime
      ++ "\n╠" ++ bar 20 ++ " CURRENT COMMIT " ++ bar 17 ++ "╣"
      ++ "\n║ Hash       : " ++ current.hash
      ++ "\n║ Branch     : " ++ current.branch
      ++ "\n║ Author     : " ++ current.author.name ++ " <" ++ current.author.email ++ ">"
      ++ "\n║ Date       : " ++ current.date
      ++ "\n║ Message    : " ++ current.message
      ++ "\n╠" ++ bar 19 ++ " LAST SUCCESSFUL DEPLOY " ++ bar 10 ++ "╣"
      ++ "\n║ Commit     : " ++ jsOrOpt lastDeploy.commit "-"
      ++ "\n║ Author     : " ++ jsOr lastDeploy.author.name "-" ++ " <"
      ++ jsOr lastDeploy.author.email "-" ++ ">"
      ++ "\n║ Time       : " ++ jsOrOpt lastDeploy.time "-"
      ++ "\n║ Message    : " ++ jsOr lastDeploy.message "-"
      ++ "\n╠" ++ bar 55 ++ "╣"
      ++ "\n║ Latest Tag : " ++ info.git.latestTag
      ++ "\n╚" ++ bar 55 ++ "╝\n    ")

/-- The JSON value tree `JSON.stringify` produces from an info object and
`JSON.parse` reads back: null, strings, whole numbers and objects cover
every field of the record. -/
inductive JsonVal where
  | jnull : JsonVal
  | jstr : String → JsonVal
  | jnum : Nat → JsonVal
  | jobj : List (String × JsonVal) → JsonVal
  deriving Repr

/-- Serialization of a string-or-null field (`null` for absent values). -/
def encodeOptStr : Option String → JsonVal
  | none => JsonVal.jnull
  | some s => JsonVal.jstr s

/-- Serialization of an author sub-record. -/
def encodeAuthor (a : AuthorRecord) : JsonVal :=
  JsonVal.jobj [("name", JsonVal.jstr a.name), ("email", JsonVal.jstr a.email)]

/-- Serialization of the whole info object, with the field layout of
`JSON.stringify` applied to the source's `getInfo` result. -/
def encodeInfo (r : InfoRecord) : JsonVal :=
  JsonVal.jobj
    [("version", JsonVal.jstr r.version),
     ("deployTime", JsonVal.jstr r.deployTime),
     ("buildTime", JsonVal.jstr r.buildTime),
     ("deployStatus", JsonVal.jstr r.deployStatus),
     ("deployCount", JsonVal.jnum r.deployCount),
     ("git", JsonVal.jobj
       [("currentCommit", JsonVal.jobj
          [("hash", JsonVal.jstr r.git.currentCommit.hash),
           ("branch", JsonVal.jstr r.git.currentCommit.branch),
           ("date", JsonVal.jstr r.git.currentCommit.date),
           ("message", JsonVal.jstr r.git.currentCommit.message),
           ("author", encodeAuthor r.git.currentCommit.author),
           ("committer", JsonVal.jstr r.git.currentCommit.committer)]),
        ("lastSuccessfulDeploy", JsonVal.jobj
          [("commit", encodeOptStr r.git.lastSuccessfulDeploy.commit),
           ("time", encodeOptStr r.git.lastSuccessfulDeploy.time),
           ("message", JsonVal.jstr r.git.lastSuccessfulDeploy.message),
           ("author", encodeAuthor r.git.lastSuccessfulDeploy.author)]),
        ("latestTag", JsonVal.jstr r.git.latestTag)])]

/-- Field lookup in a parsed JSON object. -/
def lookupField : List (String × JsonVal) → String → Option JsonVal
  | [], _ => none
  | (k, v) :: t, q => if k = q then some v else lookupField t q

/-- Field access on a parsed JSON value. -/
def jfield : JsonVal → String → Option JsonVal
  | JsonVal.jobj fs, k => lookupField fs k
  | _, _ => none

/-- Reading a string field back. -/
def decodeStr : JsonVal → Option String
  | JsonVal.jstr s => some s
  | _ => none

/-- Reading a whole-number field back. -/
def decodeNat : JsonVal → Option Nat
  | JsonVal.jnum n => some n
  | _ => none

/-- Reading a string-or-null field back. -/
def decodeOptStr : JsonVal → Option (Option String)
  | JsonVal.jnull => some none
  | JsonVal.jstr s => some (some s)
  | _ => none

/-- Reading an author sub-record back. -/
def decodeAuthor (j : JsonVal) : Option AuthorRecord :=
  (jfield j "name").bind fun jn => (decodeStr jn).bind fun n =>
  (jfield j "email").bind fun je => (decodeStr je).bind fun e =>
  some { name := n, email := e }

/-- Reading the current-commit sub-record back. -/
def decodeCurrentCommit (j : JsonVal) : Option CurrentCommitRecord :=
  (jfield j "hash").bind fun jh => (decodeStr jh).bind fun h =>
  (jfield j "branch").bind fun jb => (decodeStr jb).bind fun b =>
  (jfield j "date").bind fun jd => (decodeStr jd).bind fun d =>
  (jfield j "message").bind fun jm => (decodeStr jm).bind fun m =>
  (jfield j "author").bind fun ja => (decodeAuthor ja).bind fun a =>
  (jfield j "committer").bind fun jc => (decodeStr jc).bind fun cm =>
  some { hash := h, branch := b, date := d, message := m,
         author := a, committer := cm }

/-- Reading the last-successful-deploy sub-record back. -/
def decodeLastDeploy (j : JsonVal) : Option LastDeployRecord :=
  (jfield j "commit").bind fun jc => (decodeOptStr jc).bind fun c =>
  (jfield j "time").bind fun jt => (decodeOptStr jt).bind fun t =>
  (jfield j "message").bind fun jm => (decodeStr jm).bind fun m =>
  (jfield j "author").bind fun ja => (decodeAuthor ja).bind fun a =>
  some { commit := c, time := t, message := m, author := a }

/-- Reading the `git` sub-record back. -/
def decodeGit (j : JsonVal) : Option GitRecord :=
  (jfield j "currentCommit").bind fun jc =>
  (decodeCurrentCommit jc).bind fun cc =>
  (jfield j "lastSuccessfulDeploy").bind fun jl =>
  (decodeLastDeploy jl).bind fun lsd =>
  (jfield j "latestTag").bind fun jt => (decodeStr jt).bind fun tg =>
  some { currentCommit := cc, lastSuccessfulDeploy := lsd, latestTag := tg }

/-- Parsing a serialized info object back into an `InfoRecord`. -/
def decodeInfo (j : JsonVal) : Option InfoRecord :=
  (jfield j "version").bind fun jv => (decodeStr jv).bind fun v =>
  (jfield j "deployTime").bind fun jd => (decodeStr jd).bind fun dt =>
  (jfield j "buildTime").bind fun jb => (decodeStr jb).bind fun bt =>
  (jfield j "deployStatus").bind fun js => (decodeStr js).bind fun ds =>
  (jfield j "deployCount").bind fun jc => (decodeNat jc).bind fun dc =>
  (jfield j "git").bind fun jg => (decodeGit jg).bind fun g =>
  some { version := v, deployTime := dt, buildTime := bt,
         deployStatus := ds, deployCount := dc, git := g }

/-- Decoding inverts encoding on every info object. -/
theorem encode_decode_id (r : InfoRecord) : decodeInfo (encodeInfo r) = some r := by
  obtain ⟨v, dt, bt, ds, dc, ⟨⟨h, b, d, m, ⟨an, ae⟩, cm⟩, ⟨lc, lt, lm, ⟨ln, le⟩⟩, tg⟩⟩ := r
  cases lc <;> cases lt <;> rfl

/-- Claim C9: the info object produced by `getInfo`, serialized to the JSON
tree and parsed back, reproduces identical values in every field. -/
theorem getInfo_json_roundtrip (st : DeployInfoState) (env : Env) :
    decodeInfo (encodeInfo (getInfo st env)) = some (getInfo st env) :=
  encode_decode_id (getInfo st env)

/-- The public operations of the instance: every property getter, the two
aggregate renderers, the stats method, and the one mutator. -/
inductive Op where
  | readLatestTime | readLatestDeployTime | readAppVersion | readCommit
  | readBranch | readBuildTime | readStatus | readDeployCount
  | readLastSuccessCommit | readLastSuccessTime | readLastSuccessMessage
  | readAuthorName | readAuthorEmail | readCommitterName
  | readLastSuccessAuthor | readLastSuccessAuthorEmail | readLatestTag
  | callGetInfo | callToString | callGetDeployCommitStats
  | callSetDeployStatus : Option String → Op

/-- The observable result of one public operation. -/
inductive OutVal where
  | str : String → OutVal
  | optStr : Option String → OutVal
  | num : Nat → OutVal
  | info : InfoRecord → OutVal
  | stats : DeployCommitStats → OutVal

/-- One public operation on the instance: its observable output and the
state afterwards.  Only `setDeployStatus` assigns to `this` in the source;
every other operation leaves the state as it found it. -/
def runOp (op : Op) (env : Env) (st : DeployInfoState) : OutVal × DeployInfoState :=
  match op with
  | Op.readLatestTime => (OutVal.str (getGitLastCommitDate st env), st)
  | Op.readLatestDeployTime => (OutVal.str st.deployTime, st)
  | Op.readAppVersion => (OutVal.str st.version, st)
  | Op.readCommit => (OutVal.str st.gitCommit, st)
  | Op.readBranch => (OutVal.str st.gitBranch, st)
  | Op.readBuildTime => (OutVal.str st.buildTime, st)
  | Op.readStatus => (OutVal.str st.deployStatus, st)
  | Op.readDeployCount => (OutVal.num (deploy_count env), st)
  | Op.readLastSuccessCommit => (OutVal.str (last_success_commit env), st)
  | Op.readLastSuccessTime => (OutVal.optStr (last_success_time env), st)
  | Op.readLastSuccessMessage =>
      (OutVal.str (getLastSuccessfulCommitMessage defaultPattern env), st)
  | Op.readAuthorName => (OutVal.str (getGitAuthorName env), st)
  | Op.readAuthorEmail => (OutVal.str (getGitAuthorEmail env), st)
  | Op.readCommitterName => (OutVal.str (getGitCommitterName env), st)
  | Op.readLastSuccessAuthor =>
      (OutVal.str (getLastSuccessfulAuthorName defaultPattern env), st)
  | Op.readLastSuccessAuthorEmail =>
      (OutVal.str (getLastSuccessfulAuthorEmail defaultPattern env), st)
  | Op.readLatestTag => (OutVal.str (getGitTag env), st)
  | Op.callGetInfo => (OutVal.info (getInfo st env), st)
  | Op.callToString => (OutVal.str (toStringRender st env), st)
  | Op.callGetDeployCommitStats =>
      (OutVal.stats (getDeployCommitStats defaultPattern env), st)
  | Op.callSetDeployStatus s =>
      (OutVal.str (setDeployStatus s st).1, (setDeployStatus s st).2)

/-- Running a sequence of public operations, threading the state. -/
def runOps : List Op → Env → DeployInfoState → DeployInfoState
  | [], _, st => st
  | op :: rest, env, st => runOps rest env (runOp op env st).2

/-- No single operation changes the three snapshot fields. -/
theorem runOp_frame (op : Op) (env : Env) (st : DeployInfoState) :
    ((runOp op env st).2).deployTime = st.deployTime ∧
    ((runOp op env st).2).version = st.version ∧
    ((runOp op env st).2).buildTime = st.buildTime := by
  cases op <;> simp [runOp, setDeployStatus]
  split <;> simp

/-- Claim C5: the snapshot fields `deployTime`, `version` and `buildTime`
are fixed at construction and left unchanged by every sequence of
subsequent public operations, so every consumer within one process observes
the identical values. -/
theorem snapshot_fields_frame (ops : List Op) (env : Env) (st : DeployInfoState) :
    (runOps ops env st).deployTime = st.deployTime ∧
    (runOps ops env st).version = st.version ∧
    (runOps ops env st).buildTime = st.buildTime := by
  induction ops generalizing st with
  | nil => exact ⟨rfl, rfl, rfl⟩
  | cons op rest ih =>
    have h1 := runOp_frame op env st
    have h2 := ih ((runOp op env st).2)
    exact ⟨h2.1.trans h1.1, h2.2.1.trans h1.2.1, h2.2.2.trans h1.2.2⟩

/-- The deployment summary of the spec: the count together with the
last-qualifying lookup result. -/
structure DeploymentSummary where
  count : Nat
  lastQualifying : LastSuccessful
  deriving DecidableEq, Repr

/-- The classifier as invoked on the instance: both classification queries,
threading the instance state they never touch. -/
def classifyOp (P : Pattern) (env : Env) (st : DeployInfoState) :
    DeploymentSummary × DeployInfoState :=
  ({ count := getDeployCountFromGit P env.git,
     lastQualifying := getLastSuccessfulFromGit P env.git }, st)

/-- Claim C6: classification is a deterministic pure function of history and
pattern: two environments with identical histories give identical summaries,
evaluating the classifier twice gives identical summaries, and the instance
state is untouched. -/
theorem classify_pure (P : Pattern) (env env' : Env) (st : DeployInfoState)
    (hgit : env.git = env'.git) :
    (classifyOp P env st).1 = (classifyOp P env' st).1 ∧
    (classifyOp P env ((classifyOp P env st).2)).1 = (classifyOp P env st).1 ∧
    (classifyOp P env st).2 = st := by
  refine ⟨?_, rfl, rfl⟩
  simp [classifyOp, hgit]

/-- Modelled from the spec: the environment-provided pattern override is not
present in the module variant under src/ (which hard-codes the default
pattern in every git query); per §4.1/§6 of the spec an override string
replaces the default ClassificationPattern, and an empty or whitespace-only
override is ignored in favor of the default. -/
def resolvePattern (ov : Option String) : Pattern :=
  match ov with
  | none => defaultPattern
  | some s => if trimStr s = "" then defaultPattern else [s]

/-- Claim C8: an environment-provided override string replaces the default
pattern for all classification operations, and empty or whitespace-only
override values are ignored in favor of the default. -/
theorem pattern_override_spec (s : String) (msg : String)
    (g : Option (List CommitRecord)) :
    resolvePattern none = defaultPattern ∧
    (trimStr s = "" → resolvePattern (some s) = defaultPattern) ∧
    (trimStr s ≠ "" →
      resolvePattern (some s) = [s] ∧
      patMatches (resolvePattern (some s)) msg = containsCI s msg ∧
      getDeployCountFromGit (resolvePattern (some s)) g
        = getDeployCountFromGit [s] g ∧
      getLastSuccessfulFromGit (resolvePattern (some s)) g
        = getLastSuccessfulFromGit [s] g ∧
      getDeployStatus (resolvePattern (some s)) g = getDeployStatus [s] g) := by
  refine ⟨rfl, fun h => by simp [resolvePattern, h], fun h => ?_⟩
  have hr : resolvePattern (some s) = [s] := by simp [resolvePattern, h]
  rw [hr]
  exact ⟨rfl, by simp [patMatches], rfl, rfl, rfl⟩

/-- Witness for claim C8: the override "release" on a history where only the
overridden pattern matches the head commit. -/
theorem pattern_override_spec_witness :
    trimStr "release" ≠ "" ∧
    (resolvePattern (some "release") = ["release"] ∧
     patMatches (resolvePattern (some "release")) "Release v2"
       = containsCI "release" "Release v2" ∧
     getDeployCountFromGit (resolvePattern (some "release")) (some wH)
       = getDeployCountFromGit ["release"] (some wH) ∧
     getLastSuccessfulFromGit (resolvePattern (some "release")) (some wH)
       = getLastSuccessfulFromGit ["release"] (some wH) ∧
     getDeployStatus (resolvePattern (some "release")) (some wH)
       = getDeployStatus ["release"] (some wH)) :=
  ⟨by decide,
   (pattern_override_spec "release" "Release v2" (some wH)).2.2 (by decide)⟩

/-- The documented per-field sentinel value of every public accessor and
method when the whole environment is unavailable. -/
def sentinelSurface (env : Env) (P : Pattern) : Prop :=
  (init env).deployTime = env.nowIso ∧
  (init env).version = "1.0.0" ∧
  (init env).gitCommit = "unknown" ∧
  (init env).gitCommitMessage = "No commit message available" ∧
  (init env).gitBranch = "unknown" ∧
  (init env).buildTime = env.nowLocale ∧
  (init env).deployStatus = "unknown" ∧
  getVersion env = "1.0.0" ∧
  getGitCommit env = "unknown" ∧
  getGitBranch env = "unknown" ∧
  getGitTag env = "no-tag" ∧
  getDeployCountFromGit P env.git = 0 ∧
  getLastSuccessfulFromGit P env.git = { commit := none, time := none } ∧
  getLastSuccessfulCommitMessage P env = "Unable to retrieve message" ∧
  getLastSuccessfulAuthorName P env = "unknown" ∧
  getLastSuccessfulAuthorEmail P env = "unknown" ∧
  getGitAuthorName env = "unknown" ∧
  getGitAuthorEmail env = "unknown" ∧
  getGitCommitterName env = "unknown" ∧
  getDeployStatus P env.git = "unknown" ∧
  getDeployCommitStats P env = DeployCommitStats.zeros ∧
  deploy_count env = 0 ∧
  last_success_commit env = "unknown" ∧
  last_success_time env = none ∧
  (∀ st : DeployInfoState, getGitLastCommitDate st env = st.deployTime)

/-- Claim C4: in an environment where every facade query fails (no version
control, failing git tool, no readable manifest), every public accessor and
method still returns a value of its documented shape — the embedding of
each method is a total function — and each observable value is the
documented per-field sentinel rather than a propagated exception. -/
theorem accessors_absorb_failures (env : Env) (P : Pattern)
    (hg : env.git = none) (hb : env.branch = none)
    (hm : env.manifest = none) (ht : env.tag = none) :
    sentinelSurface env P := by
  refine ⟨?_, ?_, ?_, ?_, ?_, ?_, ?_, ?_, ?_, ?_, ?_, ?_, ?_, ?_, ?_, ?_, ?_,
    ?_, ?_, ?_, ?_, ?_, ?_, ?_, ?_⟩ <;>
    simp [init, getVersion, getGitCommit, getGitBranch, getGitTag,
      getDeployCountFromGit, getLastSuccessfulFromGit,
      getLastSuccessfulCommitMessage, getLastSuccessfulAuthorName,
      getLastSuccessfulAuthorEmail, getGitAuthorName, getGitAuthorEmail,
      getGitCommitterName, getDeployStatus, getDeployCommitStats,
      deploy_count, last_success_commit, last_success_time,
      getGitLastCommitDate, getGitLastCommitMessage, headCommit,
      availHistory, jsOrOpt, jsOrNull, hg, hb, hm, ht]

/-- A fully unavailable environment: no repository, no branch, no manifest,
no tag, failing stat queries. -/
def wEnvDown : Env :=
  { git := none, branch := none, manifest := none, tag := none,
    showStat := fun _ => none,
    nowIso := "2026-01-01T00:00:00.000Z", nowLocale := "1/1/2026, 5:00:00 AM" }

/-- Witness for claim C4 at the fully unavailable environment. -/
theorem accessors_absorb_failures_witness :
    wEnvDown.git = none ∧ wEnvDown.branch = none ∧ wEnvDown.manifest = none ∧
    wEnvDown.tag = none ∧ sentinelSurface wEnvDown defaultPattern :=
  ⟨rfl, rfl, rfl, rfl,
   accessors_absorb_failures wEnvDown defaultPattern rfl rfl rfl rfl⟩

/-- A manifest with a well-formed version field. -/
def wManifest : Manifest := { version := some "2.0.0" }

/-- A fully available environment built over the history `wH`. -/
def wEnv : Env :=
  { git := some wH, branch := some "main", manifest := some (some wManifest),
    tag := some "v1.0.0", showStat := fun _ => none,
    nowIso := "2026-01-01T00:00:00.000Z", nowLocale := "1/1/2026, 5:00:00 AM" }

/-- The same environment observed at a later clock reading: the history is
identical, only the clock fields differ. -/
def wEnvB : Env := { wEnv with nowIso := "2026-01-02T00:00:00.000Z" }

/-- The instance state constructed in the available environment. -/
def wState : DeployInfoState := init wEnv

/-- Witness for claim C6 at two environments sharing the history `wH`. -/
theorem classify_pure_witness :
    wEnv.git = wEnvB.git ∧
    ((classifyOp defaultPattern wEnv wState).1
        = (classifyOp defaultPattern wEnvB wState).1 ∧
     (classifyOp defaultPattern wEnv
        ((classifyOp defaultPattern wEnv wState).2)).1
        = (classifyOp defaultPattern wEnv wState).1 ∧
     (classifyOp defaultPattern wEnv wState).2 = wState) :=
  ⟨rfl, classify_pure defaultPattern wEnv wEnvB wState rfl⟩

/-- Claim C7: `getVersion` returns the manifest's version string when the
manifest is present, parsable and carries a (nonempty, hence truthy)
version field, and returns the default `"1.0.0"` when the manifest is
absent, unreadable or malformed, or lacks a version field. -/
theorem getVersion_spec (env : Env) (m : Manifest) (v : String) :
    (env.manifest = none → getVersion env = "1.0.0") ∧
    (env.manifest = some none → getVersion env = "1.0.0") ∧
    (env.manifest = some (some m) → m.version = none → getVersion env = "1.0.0") ∧
    (env.manifest = some (some m) → m.version = some v → v ≠ "" →
      getVersion env = v) := by
  refine ⟨fun h => ?_, fun h => ?_, fun h h' => ?_, fun h h' hv => ?_⟩ <;>
    simp [getVersion, jsOrOpt, h, *]

/-- Witness for claim C7 at the available environment's manifest. -/
theorem getVersion_spec_witness :
    wEnv.manifest = some (some wManifest) ∧ wManifest.version = some "2.0.0" ∧
    "2.0.0" ≠ "" ∧ getVersion wEnv = "2.0.0" :=
  ⟨rfl, rfl, by decide,
   (getVersion_spec wEnv wManifest "2.0.0").2.2.2 rfl rfl (by decide)⟩

/-- Claim C10: the deploy status field only ever holds one of the three
admissible strings: `getDeployStatus` produces only those values, and
`setDeployStatus` normalizes its argument (trim, lowercase), updates the
field only when the normalized value is admissible — leaving it unchanged
for every other input, null included — and always returns the post-call
value of the field. -/
theorem deployStatus_invariant (P : Pattern) (g : Option (List CommitRecord))
    (s : Option String) (st : DeployInfoState) :
    getDeployStatus P g ∈ statusSet ∧
    (setDeployStatus s st).1 = ((setDeployStatus s st).2).deployStatus ∧
    ((setDeployStatus s st).2).deployStatus =
      (if statusSet.contains (lowerStr (trimStr (strOfOpt s)))
       then lowerStr (trimStr (strOfOpt s)) else st.deployStatus) ∧
    (st.deployStatus ∈ statusSet →
      ((setDeployStatus s st).2).deployStatus ∈ statusSet) := by
  refine ⟨?_, ?_, ?_, ?_⟩
  · unfold getDeployStatus
    cases availHistory g with
    | none => simp [statusSet]
    | some H =>
      by_cases h : trimStr (grepFirstHash P H) = "" <;> simp [h, statusSet]
  · unfold setDeployStatus; split <;> rfl
  · unfold setDeployStatus; split <;> simp_all
  · intro hmem
    unfold setDeployStatus
    split
    · next hc => simpa [statusSet] using hc
    · simpa using hmem

/-- Witness for claim C10 at a concrete status update. -/
theorem deployStatus_invariant_witness :
    getDeployStatus defaultPattern (some wH) ∈ statusSet ∧
    (setDeployStatus (some " SUCCESS ") wState).1
      = ((setDeployStatus (some " SUCCESS ") wState).2).deployStatus ∧
    ((setDeployStatus (some " SUCCESS ") wState).2).deployStatus =
      (if statusSet.contains (lowerStr (trimStr (strOfOpt (some " SUCCESS "))))
       then lowerStr (trimStr (strOfOpt (some " SUCCESS ")))
       else wState.deployStatus) ∧
    (wState.deployStatus ∈ statusSet →
      ((setDeployStatus (some " SUCCESS ") wState).2).deployStatus ∈ statusSet) :=
  deployStatus_invariant defaultPattern (some wH) (some " SUCCESS ") wState

end DeployInfo
